import Mathlib

/-!
Verification of the DataProfiler core (src/server/storage.ts).

The repository holds a tabular dataset in memory (headers plus an ordered
list of records, each a JavaScript object mapping column names to
loosely-typed scalars) and offers a profiler (null analysis, duplicate
detection, unique-key analysis, date-column detection, date-range
analysis) and a rule-based transformation pipeline.

Shallow-embedding conventions:
  * A record (JS object) is a list of key/value pairs in property-insertion
    order; an absent property is an absent key.  Property lookup returns
    the first matching key (JS objects cannot hold duplicate keys, so on
    rows produced by the CSV parser the keys are distinct).
  * Scalars are the tagged union Value below.  JS numbers are IEEE-754
    doubles; the CSV parser used upstream (Papa.parse with header mode and
    no dynamicTyping) produces only strings, so numeric values occur only
    as outputs of numeric transformation rules.  We model numbers as
    integers; float-specific behaviour is outside the embedding.
  * Arithmetic that can divide by zero in JS is modelled by JSNum, a
    rational number extended with NaN and signed infinities, mirroring
    IEEE division and the JS comparison semantics on those values.
  * Date.parse / new Date(string) invoke the engine-specific general date
    parser; the embedding is parametric in that parser
    (dparse : String -> Option Int, milliseconds since the Unix epoch),
    and every theorem about code that calls it holds for all parsers.
    Calendar arithmetic of the Date type itself (construction from
    components, normalization with rollover, toISOString) is modelled
    exactly with civil-calendar arithmetic.  The Date range clamp
    (running beyond plus or minus 8.64e15 ms yields an Invalid Date) is
    not modelled; the values in scope are far inside that range.
-/

/-- A loosely-typed JS scalar as stored in a parsed CSV record.
JS numbers are doubles; only integral values arise in the modelled
pipelines, so they are embedded as integers. -/
inductive Value where
  | vStr (s : String)
  | vNum (n : Int)
  | vBool (b : Bool)
  | vNull
deriving DecidableEq, Repr

/-- JS truthiness of a Value (NaN does not arise in our number model). -/
def Value.truthy : Value → Bool
  | .vStr s => s ≠ ""
  | .vNum n => n ≠ 0
  | .vBool b => b
  | .vNull => false

/-- JS String(value) / value.toString() on a scalar.  Integral numbers
print in decimal exactly as in JS (for magnitudes below 2^53). -/
def Value.stringify : Value → String
  | .vStr s => s
  | .vNum n => toString n
  | .vBool b => if b then "true" else "false"
  | .vNull => "null"

/-- A record row: JS object as key/value list in property-insertion order. -/
abbrev Row := List (String × Value)

/-- Property read row[column]; none models undefined (absent property). -/
def getProp : Row → String → Option Value
  | [], _ => none
  | (k, v) :: rest, c => if k = c then some v else getProp rest c

/-- Property write row[column] = v: overwrite in place, or append a new
property at the end (JS property-insertion order). -/
def setProp : Row → String → Value → Row
  | [], c, v => [(c, v)]
  | (k, w) :: rest, c, v => if k = c then (k, v) :: rest else (k, w) :: setProp rest c v

/-- JS truthiness of a possibly-absent property value. -/
def truthyOpt : Option Value → Bool
  | none => false
  | some v => v.truthy

/-- A JS number for the arithmetic the profiler performs: a rational,
or NaN, or a signed infinity (results of dividing by zero). -/
inductive JSNum where
  | num (q : ℚ)
  | nan
  | inf
  | negInf
deriving DecidableEq, Repr

/-- JS division a / b on (real-valued) numbers: 0/0 is NaN, x/0 for
nonzero x is a signed infinity. -/
def jsDiv (a b : ℚ) : JSNum :=
  if b = 0 then
    if a = 0 then .nan else if 0 < a then .inf else .negInf
  else .num (a / b)

/-- JS multiplication of a number by a (finite, rational) constant. -/
def JSNum.mulQ : JSNum → ℚ → JSNum
  | .num q, c => .num (q * c)
  | .nan, _ => .nan
  | .inf, c => if c = 0 then .nan else if 0 < c then .inf else .negInf
  | .negInf, c => if c = 0 then .nan else if 0 < c then .negInf else .inf

/-- JS strict equality x === q against a finite rational literal:
false for NaN and the infinities. -/
def JSNum.eqQ : JSNum → ℚ → Bool
  | .num x, q => x = q
  | _, _ => false

/-- JS comparison x < q against a finite rational literal: false for NaN. -/
def JSNum.ltQ : JSNum → ℚ → Bool
  | .num x, q => x < q
  | .negInf, _ => true
  | _, _ => false

/-- JS comparison x > q against a finite rational literal: false for NaN. -/
def JSNum.gtQ : JSNum → ℚ → Bool
  | .num x, q => q < x
  | .inf, _ => true
  | _, _ => false

/-- Round a rational to 2 decimal places, ties away from zero toward
plus infinity, as ECMAScript toFixed specifies (the larger candidate n
is chosen on a tie). -/
def roundTo2 (q : ℚ) : ℚ := (round (q * 100) : ℤ) / 100

/-- parseFloat(x.toFixed(2)) as used to report percentages: rounds a
finite value to 2 decimals; NaN and the infinities survive the string
round-trip unchanged. -/
def JSNum.toFixed2 : JSNum → JSNum
  | .num q => .num (roundTo2 q)
  | .nan => .nan
  | .inf => .inf
  | .negInf => .negInf

/-! ## String helpers (JS string built-ins used by the core) -/

/-- JS String.prototype.trim: strip leading and trailing whitespace. -/
def jsTrim (s : String) : String :=
  String.mk (((s.toList.dropWhile Char.isWhitespace).reverse.dropWhile Char.isWhitespace).reverse)

/-- JS String.prototype.toLowerCase (ASCII range suffices here). -/
def jsToLower (s : String) : String := String.mk (s.toList.map Char.toLower)

/-- Does sub occur as a contiguous run inside l (JS includes on lists)? -/
def containsSubList : List Char → List Char → Bool
  | l, sub =>
    match l with
    | [] => sub.isEmpty
    | c :: rest => sub.isPrefixOf (c :: rest) || containsSubList rest sub

/-- JS String.prototype.includes. -/
def strIncludes (s sub : String) : Bool := containsSubList s.toList sub.toList

/-- Decimal digits to a natural number. -/
def digitsToNat (ds : List Char) : Nat :=
  ds.foldl (fun acc c => acc * 10 + (c.toNat - '0'.toNat)) 0

/-- JS parseInt(s, 10): skip leading whitespace, optional sign, then the
maximal run of decimal digits; NaN (none) when no digit is found;
trailing garbage is ignored. -/
def jsParseInt (s : String) : Option Int :=
  let cs := s.toList.dropWhile Char.isWhitespace
  let signed : Int × List Char :=
    match cs with
    | [] => (1, [])
    | c :: rest => if c = '-' then (-1, rest) else if c = '+' then (1, rest) else (1, c :: rest)
  let digits := signed.2.takeWhile Char.isDigit
  if digits.isEmpty then none else some (signed.1 * (digitsToNat digits : Int))

/-- value.split(/[-\x2f]/): split at every hyphen or slash, keeping empty
fragments, as JS String.prototype.split on that regex does. -/
def splitDashSlash : List Char → List (List Char)
  | [] => [[]]
  | c :: rest =>
    let r := splitDashSlash rest
    if c = '-' ∨ c = '/' then [] :: r
    else
      match r with
      | h :: t => (c :: h) :: t
      | [] => [[c]]

/-- Replace the first occurrence of pat in cs by rep (JS
String.prototype.replace with a plain-string pattern). -/
def replaceFirstList (cs pat rep : List Char) : List Char :=
  match cs with
  | [] => if pat.isPrefixOf ([] : List Char) then rep else []
  | c :: rest =>
    if pat.isPrefixOf (c :: rest) then rep ++ (c :: rest).drop pat.length
    else c :: replaceFirstList rest pat rep

/-- JS s.replace(pat, rep) for a plain-string pattern: first occurrence
only.  The replacement strings used by the source are digit strings, so
the JS dollar-escape forms in replacements never arise. -/
def replaceFirst (s pat rep : String) : String :=
  String.mk (replaceFirstList s.toList pat.toList rep.toList)

/-- JS String.prototype.padStart(2, "0"). -/
def padStart2 (s : String) : String :=
  if 2 ≤ s.length then s else String.mk (List.replicate (2 - s.length) '0') ++ s

/-! ## Civil calendar arithmetic (exact model of the JS Date type)

days-from-civil / civil-from-days convert between a calendar date in the
proleptic Gregorian calendar and a day count relative to 1970-01-01.
JS Date construction from components normalizes out-of-range months and
days by rollover through exactly this arithmetic. -/

/-- Day number of the civil date y-m-d (m in 1..12) relative to
1970-01-01. -/
def daysFromCivil (y m d : Int) : Int :=
  let y' := if m ≤ 2 then y - 1 else y
  let era := Int.fdiv y' 400
  let yoe := y' - era * 400
  let mp := if 2 < m then m - 3 else m + 9
  let doy := Int.fdiv (153 * mp + 2) 5 + d - 1
  let doe := yoe * 365 + Int.fdiv yoe 4 - Int.fdiv yoe 100 + doy
  era * 146097 + doe - 719468

/-- Civil date (y, m, d) of the day numbered z relative to 1970-01-01. -/
def civilFromDays (z : Int) : Int × Int × Int :=
  let z' := z + 719468
  let era := Int.fdiv z' 146097
  let doe := z' - era * 146097
  let yoe := Int.fdiv (doe - Int.fdiv doe 1460 + Int.fdiv doe 36524 - Int.fdiv doe 146096) 365
  let y := yoe + era * 400
  let doy := doe - (365 * yoe + Int.fdiv yoe 4 - Int.fdiv yoe 100)
  let mp := Int.fdiv (5 * doy + 2) 153
  let d := doy - Int.fdiv (153 * mp + 2) 5 + 1
  let m := if mp < 10 then mp + 3 else mp - 9
  (if m ≤ 2 then y + 1 else y, m, d)

/-- new Date(year, monthIndex, day) at local midnight, decomposed back
into the normalized calendar components (getFullYear, getMonth + 1,
getDate).  Construction and the component getters both use local time,
so the time zone cancels and only the calendar normalization remains:
years 0..99 map to 1900..1999, the month index rolls over into the
year, and the day of month rolls over into the month. -/
def jsDateFromYMD (year monthIndex day : Int) : Int × Int × Int :=
  let y := if 0 ≤ year ∧ year ≤ 99 then year + 1900 else year
  let y' := y + Int.fdiv monthIndex 12
  let m' := Int.emod monthIndex 12
  civilFromDays (daysFromCivil y' (m' + 1) 1 + (day - 1))

/-- Zero-pad the decimal form of a nonnegative integer to the given
width. -/
def padZeros (width : Nat) (n : Int) : String :=
  let s := toString n
  if width ≤ s.length then s else String.mk (List.replicate (width - s.length) '0') ++ s

/-- The year field of Date.prototype.toISOString: four zero-padded
digits in 0..9999, otherwise the expanded six-digit signed form. -/
def isoYearString (y : Int) : String :=
  if 0 ≤ y ∧ y ≤ 9999 then padZeros 4 y
  else if y < 0 then "-" ++ padZeros 6 (-y) else "+" ++ padZeros 6 y

/-- date.toISOString().split("T")[0] for the instant ms milliseconds
since the epoch: the UTC calendar date formatted YYYY-MM-DD. -/
def isoDateString (ms : Int) : String :=
  let c := civilFromDays (Int.fdiv ms 86400000)
  isoYearString c.1 ++ "-" ++ padZeros 2 c.2.1 ++ "-" ++ padZeros 2 c.2.2

/-- Math.ceil(a / b) for integer a and positive integer b. -/
def jsCeilDiv (a b : Int) : Int := -(Int.fdiv (-a) b)

/-! ## Profiler (MemStorage analysis methods) -/

/-- All characters are decimal digits and there is at least one:
the test /^\d+$/.test(t). -/
def allDigits1 (cs : List Char) : Bool := !cs.isEmpty && cs.all Char.isDigit

/-- The literal pattern /^\d\x7b4\x7d-\d\x7b2\x7d-\d\x7b2\x7d$/ (YYYY-MM-DD). -/
def patYMDdash : List Char → Bool
  | [a, b, c, d, '-', e, f, '-', g, h] =>
    [a, b, c, d, e, f, g, h].all Char.isDigit
  | _ => false

/-- The literal pattern DD/MM/YYYY. -/
def patDMYslash : List Char → Bool
  | [a, b, '/', c, d, '/', e, f, g, h] =>
    [a, b, c, d, e, f, g, h].all Char.isDigit
  | _ => false

/-- The literal pattern YYYY/MM/DD. -/
def patYMDslash : List Char → Bool
  | [a, b, c, d, '/', e, f, '/', g, h] =>
    [a, b, c, d, e, f, g, h].all Char.isDigit
  | _ => false

/-- The literal pattern DD-MM-YYYY. -/
def patDMYdash : List Char → Bool
  | [a, b, '-', c, d, '-', e, f, g, h] =>
    [a, b, c, d, e, f, g, h].all Char.isDigit
  | _ => false

/-- MemStorage.isDateLike, parametric in the general date parser dparse
(Date.parse).  A value is date-like when it is nonempty, its trim is not
a pure digit run, and it either matches one of the four literal date
patterns (tested on the trimmed value) or the general parser accepts the
untrimmed value. -/
def isDateLike (dparse : String → Option Int) (value : String) : Bool :=
  if value = "" then false
  else if allDigits1 (jsTrim value).toList then false
  else
    let t := (jsTrim value).toList
    patYMDdash t || patDMYslash t || patYMDslash t || patDMYdash t
      || (dparse value).isSome

/-- The header-name screen of MemStorage.detectDateColumns: a lowercased
header containing one of the identifier-like substrings is skipped. -/
def skipHeaderName (header : String) : Bool :=
  strIncludes (jsToLower header) "id" || strIncludes (jsToLower header) "code"
    || strIncludes (jsToLower header) "number" || strIncludes (jsToLower header) "count"

/-- MemStorage.detectDateColumns: for each non-skipped header, sample the
first min(10, rows) records and flag the column when the fraction of
truthy, date-like sampled values exceeds 0.5 under JS division (a zero
sample size yields NaN, which fails the comparison). -/
def detectDateColumns (dparse : String → Option Int) (data : List Row)
    (headers : List String) : List String :=
  headers.filter fun header =>
    if skipHeaderName header then false
    else
      let sample := data.take 10
      let dateCount := (sample.filter fun row =>
        truthyOpt (getProp row header)
          && isDateLike dparse (((getProp row header).getD .vNull).stringify)).length
      (jsDiv (dateCount : ℚ) (sample.length : ℚ)).gtQ (1 / 2)

/-- new Date(val) for a truthy value already accepted by the
Date.parse filter: a string goes through the general parser, a number is
taken as milliseconds since the epoch, a boolean coerces to 0 or 1. -/
def jsNewDateMs (dparse : String → Option Int) : Value → Option Int
  | .vStr s => dparse s
  | .vNum n => some n
  | .vBool b => some (if b then 1 else 0)
  | .vNull => none

/-- The parseable values of a column, in row order, as epoch
milliseconds: data.map(row => row[column]).filter(val => val &&
!isNaN(Date.parse(val))).map(val => new Date(val)). -/
def parsedDates (dparse : String → Option Int) (data : List Row) (column : String) :
    List Int :=
  data.filterMap fun row =>
    match getProp row column with
    | some v =>
      if v.truthy && (dparse v.stringify).isSome then jsNewDateMs dparse v else none
    | none => none

/-- One entry of the date-range analysis result. -/
structure DateAnalysisEntry where
  column : String
  minDate : Option String
  maxDate : Option String
  dateRange : Option Int
deriving DecidableEq, Repr

/-- MemStorage.analyzeDateColumns: per date column, sort the parseable
values ascending (a stable sort, as JS Array.prototype.sort is), report
the first and last as YYYY-MM-DD and the ceiling of their distance in
days; a column with no parseable values reports three nulls.  (The map body
of MemStorage.analyzeDateColumns, for one column.) -/
def dateEntryOf (dparse : String → Option Int) (data : List Row)
    (column : String) : DateAnalysisEntry :=
  let dates := List.insertionSort (· ≤ ·) (parsedDates dparse data column)
  match dates with
  | [] => ⟨column, none, none, none⟩
  | d :: rest =>
    let minD := d
    let maxD := (d :: rest).getLast (by simp)
    ⟨column, some (isoDateString minD), some (isoDateString maxD),
      some (jsCeilDiv (maxD - minD) 86400000)⟩

/-- MemStorage.analyzeDateColumns, one entry per date column. -/
def analyzeDateColumns (dparse : String → Option Int) (data : List Row)
    (dateColumns : List String) : List DateAnalysisEntry :=
  dateColumns.map (dateEntryOf dparse data)

/-- The status classification of the null analysis. -/
inductive NullStatus where
  | clean
  | needsAttention
  | critical
deriving DecidableEq, Repr

/-- One entry of the null analysis result. -/
structure NullAnalysisEntry where
  column : String
  nullCount : Nat
  percentage : JSNum
  status : NullStatus
deriving DecidableEq, Repr

/-- The null test of MemStorage.analyzeNullValues: null, undefined, the
empty string, or the literal strings null / NULL. -/
def isNullishValue : Option Value → Bool
  | none => true
  | some v => v = .vNull || v = .vStr "" || v = .vStr "null" || v = .vStr "NULL"

/-- MemStorage.analyzeNullValues: per header, count nullish values,
divide by the row count (JS division: 0/0 is NaN on an empty dataset),
scale to a percentage, classify (=== 0 clean, < 10 needs attention,
otherwise critical; both comparisons are false on NaN), and report the
percentage through toFixed(2)/parseFloat.  (The map body of
MemStorage.analyzeNullValues, for one header.) -/
def nullEntryOf (data : List Row) (column : String) : NullAnalysisEntry :=
  let nullCount := (data.filter fun row => isNullishValue (getProp row column)).length
  let percentage := (jsDiv (nullCount : ℚ) (data.length : ℚ)).mulQ 100
  let status :=
    if percentage.eqQ 0 then NullStatus.clean
    else if percentage.ltQ 10 then NullStatus.needsAttention
    else NullStatus.critical
  ⟨column, nullCount, percentage.toFixed2, status⟩

/-- MemStorage.analyzeNullValues, one entry per header. -/
def analyzeNullValues (data : List Row) (headers : List String) :
    List NullAnalysisEntry :=
  headers.map (nullEntryOf data)

/-- One reported duplicate group. -/
structure DuplicateGroup where
  rowIndices : List Nat
  data : Row
  count : Nat
deriving DecidableEq, Repr

/-- Pair each row with its index, starting at n.  (data.forEach with the
index argument.) -/
def enumFromN (n : Nat) : List Row → List (Nat × Row)
  | [] => []
  | r :: rest => (n, r) :: enumFromN (n + 1) rest

/-- Append index i to the group of key r in an association list grouped
in key-first-occurrence order, adding a new group at the end when the
key is new (JS Map insertion-order semantics).  Keys are the rows
themselves: JSON.stringify is injective on the embedded rows (property
order is part of the row, undefined properties are absent keys), so
grouping by the serialization string is grouping by the row. -/
def addIdx : List (Row × List Nat) → Row → Nat → List (Row × List Nat)
  | [], r, i => [(r, [i])]
  | (k, v) :: rest, r, i =>
    if k = r then (k, v ++ [i]) :: rest else (k, v) :: addIdx rest r i

/-- The rowMap of MemStorage.findDuplicateRows: indices grouped by row
serialization, in first-occurrence order. -/
def rowGroups (data : List Row) : List (Row × List Nat) :=
  (enumFromN 0 data).foldl (fun m p => addIdx m p.2 p.1) []

/-- MemStorage.findDuplicateRows: the groups with more than one member,
each as its index list, a representative row (JSON.parse of the key,
which round-trips to the row itself), and the group size. -/
def findDuplicateRows (data : List Row) : List DuplicateGroup :=
  (rowGroups data).filterMap fun g =>
    if 1 < g.2.length then some ⟨g.2, g.1, g.2.length⟩ else none

/-- All indices at which a row structurally equal to r occurs in data,
ascending. -/
def indicesOf (r : Row) (data : List Row) : List Nat :=
  ((enumFromN 0 data).filter fun p => p.2 = r).map Prod.fst

/-- One entry of the unique-key analysis result. -/
structure UniqueKeyEntry where
  column : String
  uniqueCount : Nat
  totalCount : Nat
  percentage : JSNum
  isUniqueKey : Bool
deriving DecidableEq, Repr

/-- The stringified non-null, non-absent, non-empty values of a column,
in row order (the values added to the uniqueValues set). -/
def uniqueKeyValues (data : List Row) (column : String) : List String :=
  data.filterMap fun row =>
    match getProp row column with
    | some v => if v ≠ .vNull ∧ v ≠ .vStr "" then some v.stringify else none
    | none => none

/-- MemStorage.analyzeUniqueKeys: per header, the number of distinct
stringified non-null non-empty values, the row count, their ratio as a
percentage (JS division: 0/0 is NaN), and the strict-equality test
percentage === 100.  (The map body of MemStorage.analyzeUniqueKeys,
for one header.) -/
def uniqueKeyEntryOf (data : List Row) (column : String) : UniqueKeyEntry :=
  let uniqueCount := (uniqueKeyValues data column).dedup.length
  let totalCount := data.length
  let percentage := (jsDiv (uniqueCount : ℚ) (totalCount : ℚ)).mulQ 100
  ⟨column, uniqueCount, totalCount, percentage.toFixed2, percentage.eqQ 100⟩

/-- MemStorage.analyzeUniqueKeys, one entry per header. -/
def analyzeUniqueKeys (data : List Row) (headers : List String) :
    List UniqueKeyEntry :=
  headers.map (uniqueKeyEntryOf data)

/-! ## Transformer (MemStorage data-cleaning pipeline) -/

/-- The parameter bag of a transformation rule.  Each field is optional;
an absent field (JS undefined) triggers the per-rule destructuring
default. -/
structure Params where
  targetFormat : Option String := none
  operation : Option String := none
  decimalPlaces : Option Int := none
  startIndex : Option Int := none
  length : Option Int := none
  replacementValue : Option String := none
  fallbackColumns : Option (List String) := none
  defaultValue : Option String := none
  text : Option String := none
  position : Option String := none
  searchText : Option String := none
deriving DecidableEq, Repr

/-- One transformation rule: opaque id, target column, type tag
(dispatched as a string, as in the source), parameters. -/
structure TransformationRule where
  id : String
  column : String
  type : String
  parameters : Params
deriving DecidableEq, Repr

/-- The structured per-rule summary stored under the rule id. -/
inductive Summary where
  | dateFormatS (transformedCount : Nat) (targetFormat : String)
  | timestampS (transformedCount : Nat) (targetFormat : String)
  | numberS (transformedCount : Nat) (operation : String)
  | removeDupS (duplicateCount : Nat) (uniqueRows : Nat)
  | subsetS (transformedCount : Nat) (startIndex : Int) (length : Option Int)
  | replaceNullsS (replacedCount : Nat) (replacementValue : String)
  | coalesceS (coalescedCount : Nat) (fallbackColumns : List String) (defaultValue : String)
  | textS (transformedCount : Nat) (operation : String) (text : String)
      (position : String) (searchText : String)
  | emptyS
deriving DecidableEq, Repr

/-- The value returned by one applyTransformation call.  rowsRemoved
defaults to 0: the source omits the field except for remove_duplicates
and reads it back as result.rowsRemoved || 0. -/
structure TransResult where
  data : List Row
  headers : List String
  rowsRemoved : Nat := 0
  description : String
  summary : Summary
deriving DecidableEq, Repr

/-- MemStorage.parseDate: split the value at every hyphen or slash; on
exactly three fragments, parseInt each as day, month, year (lenient:
leading whitespace and trailing garbage are accepted); on success build
new Date(year, month - 1, day) and return its normalized calendar
components.  Any other shape is null. -/
def parseDate (value : String) : Option (Int × Int × Int) :=
  match splitDashSlash value.toList with
  | [p1, p2, p3] =>
    match jsParseInt (String.mk p1), jsParseInt (String.mk p2), jsParseInt (String.mk p3) with
    | some day, some month, some year => some (jsDateFromYMD year (month - 1) day)
    | _, _, _ => none
  | _ => none

/-- MemStorage.formatDate: substitute the first occurrence of each of
the tokens YYYY, MM, DD (in that order) in the target template by the
date components, months and days zero-padded to two digits. -/
def formatDate (ymd : Int × Int × Int) (format : String) : String :=
  replaceFirst
    (replaceFirst
      (replaceFirst format "YYYY" (toString ymd.1))
      "MM" (padStart2 (toString ymd.2.1)))
    "DD" (padStart2 (toString ymd.2.2))

/-- The per-row transformation test of transformDateFormat: the column
holds a truthy string whose trim is nonempty and which parseDate
accepts.  (A truthy non-string value would make the source throw on
.trim(); the CSV pipeline feeding this code produces only string
values, and the theorems below restrict to string-valued columns.) -/
def dfCond (column : String) (row : Row) : Bool :=
  match getProp row column with
  | some (.vStr s) => s ≠ "" && jsTrim s ≠ "" && (parseDate s).isSome
  | _ => false

/-- The per-row rewrite of transformDateFormat. -/
def dfApply (column targetFormat : String) (row : Row) : Row :=
  match getProp row column with
  | some (.vStr s) =>
    if s ≠ "" && jsTrim s ≠ "" then
      match parseDate s with
      | some ymd => setProp row column (.vStr (formatDate ymd targetFormat))
      | none => row
    else row
  | _ => row

/-- MemStorage.transformDateFormat. -/
def transformDateFormat (data : List Row) (headers : List String)
    (column : String) (params : Params) : TransResult :=
  let targetFormat := params.targetFormat.getD "YYYY-MM-DD"
  let transformedCount := data.countP (dfCond column)
  { data := data.map (dfApply column targetFormat)
    headers := headers
    description := "Transformed " ++ toString transformedCount ++
      " dates in column \x27" ++ column ++ "\x27 to format \x27" ++ targetFormat ++ "\x27"
    summary := .dateFormatS transformedCount targetFormat }

/-- The dedup scan of MemStorage.removeDuplicates: keep each row whose
serialization was not seen before, count the dropped ones.  The seen
set is the set of rows already kept (serialization is injective on
embedded rows, see rowGroups). -/
def removeDupAux (seen : List Row) : List Row → List Row × Nat
  | [] => ([], 0)
  | r :: rest =>
    if r ∈ seen then
      let p := removeDupAux seen rest
      (p.1, p.2 + 1)
    else
      let p := removeDupAux (r :: seen) rest
      (r :: p.1, p.2)

/-- MemStorage.removeDuplicates. -/
def removeDuplicates (data : List Row) (headers : List String) : TransResult :=
  let p := removeDupAux [] data
  { data := p.1
    headers := headers
    rowsRemoved := p.2
    description := "Removed " ++ toString p.2 ++ " duplicate rows"
    summary := .removeDupS p.2 p.1.length }

/-- JS s.substring(a, b): clamp both indices into [0, length], swap when
out of order, take the slice. -/
def jsSubstring2 (s : String) (a b : Int) : String :=
  let n : Int := (s.length : Int)
  let a' := min (max a 0) n
  let b' := min (max b 0) n
  let lo := min a' b'
  let hi := max a' b'
  String.mk ((s.toList.drop lo.toNat).take (hi - lo).toNat)

/-- JS s.substring(a): slice from a (clamped) to the end. -/
def jsSubstring1 (s : String) (a : Int) : String := jsSubstring2 s a (s.length : Int)

/-- The per-row rewrite of subsetColumn: on truthy string values,
substring from startIndex of the given length; a falsy length parameter
(absent or 0) means to the end of the string. -/
def scApply (column : String) (startIndex : Int) (length : Option Int) (row : Row) : Row :=
  match getProp row column with
  | some (.vStr s) =>
    if s ≠ "" then
      let nv :=
        match length with
        | some l =>
          if l ≠ 0 then jsSubstring2 s startIndex (startIndex + l) else jsSubstring1 s startIndex
        | none => jsSubstring1 s startIndex
      setProp row column (.vStr nv)
    else row
  | _ => row

/-- The per-row transformation test of subsetColumn: a truthy string. -/
def scCond (column : String) (row : Row) : Bool :=
  match getProp row column with
  | some (.vStr s) => s ≠ ""
  | _ => false

/-- MemStorage.subsetColumn. -/
def subsetColumn (data : List Row) (headers : List String)
    (column : String) (params : Params) : TransResult :=
  let startIndex := params.startIndex.getD 0
  let transformedCount := data.countP (scCond column)
  { data := data.map (scApply column startIndex params.length)
    headers := headers
    description := "Extracted substring from " ++ toString transformedCount ++
      " values in column \x27" ++ column ++ "\x27"
    summary := .subsetS transformedCount startIndex params.length }

/-- The null test of replaceNulls: null, undefined, the empty string, or
the literal string null (the uppercase NULL is not tested here). -/
def rnCond (column : String) (row : Row) : Bool :=
  match getProp row column with
  | none => true
  | some v => v = .vNull || v = .vStr "" || v = .vStr "null"

/-- MemStorage.replaceNulls. -/
def replaceNulls (data : List Row) (headers : List String)
    (column : String) (params : Params) : TransResult :=
  let replacementValue := params.replacementValue.getD ""
  let replacedCount := data.countP (rnCond column)
  { data := data.map fun row =>
      if rnCond column row then setProp row column (.vStr replacementValue) else row
    headers := headers
    description := "Replaced " ++ toString replacedCount ++ " null values in column \x27" ++
      column ++ "\x27 with \x27" ++ replacementValue ++ "\x27"
    summary := .replaceNullsS replacedCount replacementValue }

/-- The fallback scan of coalesceColumns: the first fallback column
holding a truthy value (the source conditions !== empty string and
!== null are implied by truthiness). -/
def coalesceFind (row : Row) : List String → Option Value
  | [] => none
  | fb :: rest =>
    match getProp row fb with
    | some v => if v.truthy then some v else coalesceFind row rest
    | none => coalesceFind row rest

/-- One row of coalesceColumns: when the target value is falsy (the
source conditions === empty string and === null are implied), copy the
first truthy fallback value, else the default value when that is
nonempty; the Bool reports whether the row was counted. -/
def coStep (column : String) (fallbackColumns : List String) (defaultValue : String)
    (row : Row) : Row × Bool :=
  if truthyOpt (getProp row column) then (row, false)
  else
    match coalesceFind row fallbackColumns with
    | some v => (setProp row column v, true)
    | none =>
      if defaultValue ≠ "" then (setProp row column (.vStr defaultValue), true)
      else (row, false)

/-- MemStorage.coalesceColumns. -/
def coalesceColumns (data : List Row) (headers : List String)
    (column : String) (params : Params) : TransResult :=
  let fallbackColumns := params.fallbackColumns.getD []
  let defaultValue := params.defaultValue.getD ""
  let coalescedCount := data.countP fun row => (coStep column fallbackColumns defaultValue row).2
  { data := data.map fun row => (coStep column fallbackColumns defaultValue row).1
    headers := headers
    description := "Coalesced " ++ toString coalescedCount ++ " values in column \x27" ++
      column ++ "\x27 using fallback columns" ++
      (if defaultValue ≠ "" then " and default value \x27" ++ defaultValue ++ "\x27" else "")
    summary := .coalesceS coalescedCount fallbackColumns defaultValue }

/-- Replace every non-overlapping occurrence of the nonempty pattern
pat, scanning left to right, as a global literal-pattern regex does. -/
def replaceAllAux (pat rep : List Char) : List Char → List Char
  | [] => []
  | c :: rest =>
    if pat.isPrefixOf (c :: rest) && !pat.isEmpty then
      rep ++ replaceAllAux pat rep ((c :: rest).drop pat.length)
    else c :: replaceAllAux pat rep rest
termination_by cs => cs.length
decreasing_by
  · rename_i h
    simp only [Bool.and_eq_true, Bool.not_eq_true', List.isEmpty_iff] at h
    have hlen : 0 < pat.length := List.length_pos.mpr (by simpa using h.2)
    simp only [List.length_drop, List.length_cons]
    omega
  · simp [Nat.lt_succ_self]

/-- JS s.replace(new RegExp(escaped, "g"), rep) for a literal (escaped)
pattern: with an empty pattern the regex matches the empty string at
every position and rep is inserted there; otherwise every occurrence is
replaced left to right.  (The source escapes the pattern, so it always
matches literally; dollar escapes in the replacement are not modelled —
no claim exercises them.) -/
def jsReplaceAll (s pat rep : String) : String :=
  if pat = "" then String.mk (rep.toList ++ s.toList.flatMap (fun c => c :: rep.toList))
  else String.mk (replaceAllAux pat.toList rep.toList s.toList)

/-- The new value computed by one manipulateText switch dispatch; an
unrecognized operation leaves the value unchanged. -/
def tmNewValue (operation text position searchText : String) (s : String) : String :=
  if operation = "add" then (if position = "start" then text ++ s else s ++ text)
  else if operation = "remove" then jsReplaceAll s text ""
  else if operation = "replace" then jsReplaceAll s searchText text
  else s

/-- The per-row transformation test of manipulateText: a truthy string
whose new value differs from the original. -/
def tmCond (column operation text position searchText : String) (row : Row) : Bool :=
  match getProp row column with
  | some (.vStr s) => s ≠ "" && tmNewValue operation text position searchText s ≠ s
  | _ => false

/-- The per-row rewrite of manipulateText: assign only when changed. -/
def tmApply (column operation text position searchText : String) (row : Row) : Row :=
  match getProp row column with
  | some (.vStr s) =>
    if s ≠ "" then
      let nv := tmNewValue operation text position searchText s
      if nv ≠ s then setProp row column (.vStr nv) else row
    else row
  | _ => row

/-- MemStorage.manipulateText. -/
def manipulateText (data : List Row) (headers : List String)
    (column : String) (params : Params) : TransResult :=
  let operation := params.operation.getD "add"
  let text := params.text.getD ""
  let position := params.position.getD "end"
  let searchText := params.searchText.getD ""
  let transformedCount := data.countP (tmCond column operation text position searchText)
  { data := data.map (tmApply column operation text position searchText)
    headers := headers
    description := "Applied text " ++ operation ++ " to " ++ toString transformedCount ++
      " values in column \x27" ++ column ++ "\x27" ++
      (if operation = "replace" then
        " (replaced \x22" ++ searchText ++ "\x22 with \x22" ++ text ++ "\x22)"
      else "")
    summary := .textS transformedCount operation text position searchText }

/-- The two transformations whose observable output runs through
IEEE-754 float formatting and the host time zone (timestamp_format
formats through local-time getters, number_format through float
toFixed): they are outside the shallow embedding and enter it as
abstract functions; every theorem below holds for all of them. -/
structure JsEnv where
  transformTimestampFormat : List Row → List String → String → Params → TransResult
  transformNumberFormat : List Row → List String → String → Params → TransResult

/-- The rule types known to the applyTransformation dispatch, in switch
order. -/
def knownRuleTypes : List String :=
  ["date_format", "timestamp_format", "number_format", "remove_duplicates",
   "subset_column", "replace_nulls", "coalesce", "text_manipulation"]

/-- MemStorage.applyTransformation: string dispatch on the rule type;
the default branch is a no-op that records the unknown type name. -/
def applyTransformation (env : JsEnv) (data : List Row) (headers : List String)
    (rule : TransformationRule) : TransResult :=
  if rule.type = "date_format" then
    transformDateFormat data headers rule.column rule.parameters
  else if rule.type = "timestamp_format" then
    env.transformTimestampFormat data headers rule.column rule.parameters
  else if rule.type = "number_format" then
    env.transformNumberFormat data headers rule.column rule.parameters
  else if rule.type = "remove_duplicates" then
    removeDuplicates data headers
  else if rule.type = "subset_column" then
    subsetColumn data headers rule.column rule.parameters
  else if rule.type = "replace_nulls" then
    replaceNulls data headers rule.column rule.parameters
  else if rule.type = "coalesce" then
    coalesceColumns data headers rule.column rule.parameters
  else if rule.type = "text_manipulation" then
    manipulateText data headers rule.column rule.parameters
  else
    { data := data
      headers := headers
      description := "Unknown transformation type: " ++ rule.type
      summary := .emptyS }

/-- The result of MemStorage.processDataCleaning. -/
structure CleaningResult where
  cleanedData : List Row
  headers : List String
  appliedTransformations : List String
  rowsRemoved : Nat
  transformationSummary : List (String × Summary)
deriving DecidableEq, Repr

/-- transformationSummary[rule.id] = summary: JS object property
assignment, overwriting in place or appending a new key at the end. -/
def setSummary : List (String × Summary) → String → Summary → List (String × Summary)
  | [], i, s => [(i, s)]
  | (k, v) :: rest, i, s =>
    if k = i then (k, s) :: rest else (k, v) :: setSummary rest i s

/-- One iteration of the rule loop in processDataCleaning. -/
def cleanStep (env : JsEnv) (acc : CleaningResult) (rule : TransformationRule) :
    CleaningResult :=
  let r := applyTransformation env acc.cleanedData acc.headers rule
  { cleanedData := r.data
    headers := r.headers
    appliedTransformations := acc.appliedTransformations ++ [r.description]
    rowsRemoved := acc.rowsRemoved + r.rowsRemoved
    transformationSummary := setSummary acc.transformationSummary rule.id r.summary }

/-- MemStorage.processDataCleaning: fold the rule list over the working
copy.  outputDelimiter is accepted and ignored, as in the core. -/
def processDataCleaning (env : JsEnv) (csvDataRows : List Row) (csvHeaders : List String)
    (transformationRules : List TransformationRule) (outputDelimiter : String) :
    CleaningResult :=
  let _ := outputDelimiter
  transformationRules.foldl (cleanStep env)
    { cleanedData := csvDataRows
      headers := csvHeaders
      appliedTransformations := []
      rowsRemoved := 0
      transformationSummary := [] }

/-- Modelled from the claim wording for C1, not from the source: a
string strictly of the literal form DD-MM-YYYY or DD/MM/YYYY (two
digits, delimiter, two digits, same delimiter, four digits). -/
def specStrictDMY (s : String) : Bool :=
  match s.toList with
  | [a, b, sep1, c, d, sep2, e, f, g, h] =>
    [a, b, c, d, e, f, g, h].all Char.isDigit &&
      ((sep1 = '-' && sep2 = '-') || (sep1 = '/' && sep2 = '/'))
  | _ => false

/-! ## Proof-support definitions -/

/-- Lookup in a group association list (the Map.get of
findDuplicateRows, with rows as keys). -/
def lookupGroup : List (Row × List Nat) → Row → Option (List Nat)
  | [], _ => none
  | (k, v) :: rest, r => if k = r then some v else lookupGroup rest r

/-- Append an index batch to an optional existing group: the combined
effect of Map.has / Map.set / push in findDuplicateRows. -/
def optAppend (o : Option (List Nat)) (xs : List Nat) : Option (List Nat) :=
  match o with
  | some v => some (v ++ xs)
  | none => if xs = [] then none else some xs

/-- Every value present in the column is a string or null — the shape
Papa.parse (header mode, no dynamicTyping) produces.  Theorems about
transformDateFormat assume it: the source calls .trim() on every truthy
value of the column, which throws on a truthy non-string. -/
def stringColumn (data : List Row) (column : String) : Bool :=
  data.all fun row =>
    match getProp row column with
    | some (.vStr _) => true
    | some .vNull => true
    | none => true
    | _ => false

/-- A trivial instantiation of the abstract environment, used in closed
corollaries: both abstract transformations act as no-ops. -/
def trivialEnv : JsEnv :=
  ⟨fun d h _ _ => ⟨d, h, 0, "", .emptyS⟩, fun d h _ _ => ⟨d, h, 0, "", .emptyS⟩⟩

/-- A minimal concrete general date parser for closed corollaries: it
accepts exactly the strict YYYY-MM-DD strings, which Date.parse reads
as UTC midnight of that civil date. -/
def isoDateOnlyParse (s : String) : Option Int :=
  match s.toList with
  | [a, b, c, d, '-', e, f, '-', g, h] =>
    if [a, b, c, d, e, f, g, h].all Char.isDigit then
      some (86400000 * daysFromCivil (digitsToNat [a, b, c, d])
        (digitsToNat [e, f]) (digitsToNat [g, h]))
    else none
  | _ => none

/-! ## Theorems -/

/-- C7: on a dataset with zero records no column is flagged as a date
column: the 0/0 sample ratio is NaN, NaN > 0.5 is false, and the
name-screen branch flags nothing either, for every general date parser
and every header list. -/
theorem detect_date_columns_empty_dataset (dparse : String → Option Int)
    (headers : List String) : detectDateColumns dparse [] headers = [] := by
  unfold detectDateColumns
  rw [List.filter_eq_nil_iff]
  intro h _
  by_cases hs : skipHeaderName h
  · simp [hs]
  · simp [hs, jsDiv, JSNum.gtQ]

/-- C6: a header whose lowercased name contains one of the substrings
id, code, number, count is never reported as a date column, for every
dataset, every header list and every general date parser. -/
theorem skipped_header_never_date_column (dparse : String → Option Int)
    (data : List Row) (headers : List String) (h : String)
    (hskip : (strIncludes (jsToLower h) "id" || strIncludes (jsToLower h) "code" ||
      strIncludes (jsToLower h) "number" || strIncludes (jsToLower h) "count") = true) :
    h ∉ detectDateColumns dparse data headers := by
  intro hmem
  have hpred := (List.mem_filter.mp hmem).2
  have hsk : skipHeaderName h = true := hskip
  rw [hsk] at hpred
  simp at hpred

/-- C6 witness: the column order_id, holding numeric-looking date
strings, is not reported as a date column (here for the parser that
rejects everything; the theorem gives it for every parser). -/
theorem skipped_header_never_date_column_witness :
    (strIncludes (jsToLower "order_id") "id" || strIncludes (jsToLower "order_id") "code" ||
      strIncludes (jsToLower "order_id") "number" || strIncludes (jsToLower "order_id") "count") = true
    ∧ "order_id" ∉ detectDateColumns (fun _ => none)
        [[("order_id", .vStr "2023-12-31")], [("order_id", .vStr "2023-12-30")]] ["order_id"] :=
  ⟨by decide,
    skipped_header_never_date_column (fun _ => none)
      [[("order_id", .vStr "2023-12-31")], [("order_id", .vStr "2023-12-30")]]
      ["order_id"] "order_id" (by decide)⟩

/-- C10: on a dataset with zero records, the null analysis divides by
zero without a guard: every column reports the NaN percentage 0/0, the
Clean and Needs Attention branches are skipped, and the status is
always Critical, never Clean. -/
theorem null_analysis_zero_rows_critical (headers : List String) :
    ∀ e ∈ analyzeNullValues [] headers,
      e.percentage = JSNum.nan ∧ e.status = NullStatus.critical ∧
        e.status ≠ NullStatus.clean := by
  intro e he
  obtain ⟨c, _, rfl⟩ := List.mem_map.mp he
  simp [nullEntryOf, jsDiv, JSNum.mulQ, JSNum.eqQ, JSNum.ltQ, JSNum.toFixed2]

/-- C10 witness: the concrete empty dataset with one column. -/
theorem null_analysis_zero_rows_critical_witness :
    (⟨"a", 0, JSNum.nan, NullStatus.critical⟩ : NullAnalysisEntry) ∈ analyzeNullValues [] ["a"]
    ∧ ((⟨"a", 0, JSNum.nan, NullStatus.critical⟩ : NullAnalysisEntry).percentage = JSNum.nan
      ∧ (⟨"a", 0, JSNum.nan, NullStatus.critical⟩ : NullAnalysisEntry).status = NullStatus.critical
      ∧ (⟨"a", 0, JSNum.nan, NullStatus.critical⟩ : NullAnalysisEntry).status ≠ NullStatus.clean) :=
  ⟨by decide,
    null_analysis_zero_rows_critical ["a"] ⟨"a", 0, JSNum.nan, NullStatus.critical⟩ (by decide)⟩

/-- Helper: the fields of a null-analysis entry, unfolded. -/
theorem nullEntryOf_eq (data : List Row) (c : String) :
    nullEntryOf data c =
      ⟨c, (data.filter fun row => isNullishValue (getProp row c)).length,
        ((jsDiv (((data.filter fun row => isNullishValue (getProp row c)).length : ℚ))
          (data.length : ℚ)).mulQ 100).toFixed2,
        if ((jsDiv (((data.filter fun row => isNullishValue (getProp row c)).length : ℚ))
              (data.length : ℚ)).mulQ 100).eqQ 0 then NullStatus.clean
        else if ((jsDiv (((data.filter fun row => isNullishValue (getProp row c)).length : ℚ))
              (data.length : ℚ)).mulQ 100).ltQ 10 then NullStatus.needsAttention
        else NullStatus.critical⟩ := rfl

/-- C4: on a dataset with at least one row, the null analysis counts the
null / absent / empty / literal-null values per column, reports their
share of the row count as a percentage rounded to two decimals, and
classifies it Clean exactly at zero, Needs Attention strictly between
0 and 10, Critical at and above 10 (the classification reads the
unrounded percentage).  A column in which every value is the empty
string reports percentage 100 and status Critical. -/
theorem null_analysis_thresholds (data : List Row) (headers : List String)
    (hrows : 0 < data.length) :
    ∀ e ∈ analyzeNullValues data headers,
      e.nullCount = (data.filter fun row => isNullishValue (getProp row e.column)).length ∧
      e.percentage = JSNum.num (roundTo2 ((e.nullCount : ℚ) / (data.length : ℚ) * 100)) ∧
      (e.status = NullStatus.clean ↔ (e.nullCount : ℚ) / (data.length : ℚ) * 100 = 0) ∧
      (e.status = NullStatus.needsAttention ↔
        (0 < (e.nullCount : ℚ) / (data.length : ℚ) * 100 ∧
          (e.nullCount : ℚ) / (data.length : ℚ) * 100 < 10)) ∧
      (e.status = NullStatus.critical ↔ 10 ≤ (e.nullCount : ℚ) / (data.length : ℚ) * 100) ∧
      ((∀ row ∈ data, getProp row e.column = some (.vStr "")) →
        e.percentage = JSNum.num 100 ∧ e.status = NullStatus.critical) := by
  intro e he
  obtain ⟨c, _, rfl⟩ := List.mem_map.mp he
  rw [nullEntryOf_eq]
  have hL : ((data.length : ℚ)) ≠ 0 := by
    exact_mod_cast Nat.pos_iff_ne_zero.mp hrows
  set n := (data.filter fun row => isNullishValue (getProp row c)).length with hn
  set pct : ℚ := (n : ℚ) / (data.length : ℚ) * 100 with hpct
  have hdiv : (jsDiv (n : ℚ) (data.length : ℚ)).mulQ 100 = JSNum.num pct := by
    simp [jsDiv, hL, JSNum.mulQ, hpct]
  have hnn : 0 ≤ pct := by rw [hpct]; positivity
  simp only [hdiv, JSNum.toFixed2, JSNum.eqQ, JSNum.ltQ]
  refine ⟨trivial, trivial, ?_, ?_, ?_, ?_⟩
  · by_cases h0 : pct = 0
    · simp [h0]
    · by_cases h10 : pct < 10 <;> simp [h0, h10]
  · by_cases h0 : pct = 0
    · simp [h0]
    · have hpos : 0 < pct := lt_of_le_of_ne hnn (Ne.symm h0)
      by_cases h10 : pct < 10 <;> simp [h0, h10, hpos]
  · by_cases h0 : pct = 0
    · simp [h0]
    · by_cases h10 : pct < 10 <;> simp [h0, h10]
      linarith
  · intro hall
    have hfull : (data.filter fun row => isNullishValue (getProp row c)) = data := by
      rw [List.filter_eq_self]
      intro row hrow
      simp [isNullishValue, hall row hrow]
    have hpn : n = data.length := by rw [hn, hfull]
    have h100 : pct = 100 := by
      rw [hpct, hpn, div_self hL, one_mul]
    rw [h100]
    refine ⟨by norm_num [roundTo2], by norm_num⟩

/-- C4 witness: a two-row dataset whose only column holds the empty
string everywhere reports percentage 100 and status Critical. -/
theorem null_analysis_thresholds_witness :
    (nullEntryOf [[("a", Value.vStr "")], [("a", Value.vStr "")]] "a").percentage = JSNum.num 100 ∧
    (nullEntryOf [[("a", Value.vStr "")], [("a", Value.vStr "")]] "a").status = NullStatus.critical :=
  (null_analysis_thresholds [[("a", Value.vStr "")], [("a", Value.vStr "")]] ["a"]
    (by decide) (nullEntryOf [[("a", Value.vStr "")], [("a", Value.vStr "")]] "a")
    (List.mem_singleton.mpr rfl)).2.2.2.2.2 (by decide)

/-- Helper: the fields of a unique-key entry, unfolded. -/
theorem uniqueKeyEntryOf_eq (data : List Row) (c : String) :
    uniqueKeyEntryOf data c =
      ⟨c, (uniqueKeyValues data c).dedup.length, data.length,
        ((jsDiv ((uniqueKeyValues data c).dedup.length : ℚ) (data.length : ℚ)).mulQ 100).toFixed2,
        ((jsDiv ((uniqueKeyValues data c).dedup.length : ℚ) (data.length : ℚ)).mulQ 100).eqQ 100⟩ :=
  rfl

/-- C3: the unique-key analysis counts distinct stringified values among
the non-null, non-absent, non-empty entries of each column, and
isUniqueKey holds exactly when distinct-count over row-count is exactly
100 percent; a column with one non-empty value per row, all distinct,
reports isUniqueKey true and percentage exactly 100. -/
theorem unique_key_analysis (data : List Row) (headers : List String) :
    ∀ e ∈ analyzeUniqueKeys data headers,
      e.totalCount = data.length ∧
      e.uniqueCount = (uniqueKeyValues data e.column).dedup.length ∧
      (e.isUniqueKey = true ↔ (e.uniqueCount : ℚ) / (e.totalCount : ℚ) * 100 = 100) ∧
      ((uniqueKeyValues data e.column).Nodup →
        (uniqueKeyValues data e.column).length = data.length → 0 < data.length →
        e.isUniqueKey = true ∧ e.percentage = JSNum.num 100) := by
  intro e he
  obtain ⟨c, _, rfl⟩ := List.mem_map.mp he
  rw [uniqueKeyEntryOf_eq]
  set u := (uniqueKeyValues data c).dedup.length with hu
  refine ⟨rfl, rfl, ?_, ?_⟩
  · by_cases ht : data.length = 0
    · have hdata : data = [] := List.length_eq_zero.mp ht
      have hu0 : u = 0 := by simp [hu, hdata, uniqueKeyValues]
      simp [ht, hu0, jsDiv, JSNum.mulQ, JSNum.eqQ]
    · have hL : ((data.length : ℚ)) ≠ 0 := by exact_mod_cast ht
      simp [jsDiv, hL, JSNum.mulQ, JSNum.eqQ]
  · intro hnodup hlen hpos
    have hdedup : (uniqueKeyValues data c).dedup = uniqueKeyValues data c :=
      List.dedup_eq_self.mpr hnodup
    have hut : u = data.length := by rw [hu, hdedup, hlen]
    have hL : ((data.length : ℚ)) ≠ 0 := by
      exact_mod_cast Nat.pos_iff_ne_zero.mp hpos
    have h100 : (u : ℚ) / (data.length : ℚ) * 100 = 100 := by
      rw [hut, div_self hL, one_mul]
    have hdiv : (jsDiv (u : ℚ) (data.length : ℚ)).mulQ 100 = JSNum.num 100 := by
      simp [jsDiv, hL, JSNum.mulQ, h100]
    simp [hdiv, JSNum.eqQ, JSNum.toFixed2, roundTo2]
    norm_num

/-- C3 witness: a two-row dataset with distinct non-empty values in its
only column is reported as a unique key with percentage exactly 100. -/
theorem unique_key_analysis_witness :
    (uniqueKeyEntryOf [[("a", Value.vStr "1")], [("a", Value.vStr "2")]] "a").isUniqueKey = true ∧
    (uniqueKeyEntryOf [[("a", Value.vStr "1")], [("a", Value.vStr "2")]] "a").percentage = JSNum.num 100 :=
  (unique_key_analysis [[("a", Value.vStr "1")], [("a", Value.vStr "2")]] ["a"]
    (uniqueKeyEntryOf [[("a", Value.vStr "1")], [("a", Value.vStr "2")]] "a")
    (List.mem_singleton.mpr rfl)).2.2.2 (by decide) (by decide) (by decide)

/-- Helper: the dispatch default — a rule whose type is none of the
eight known transformation types produces the pass-through result that
records the unknown type name. -/
theorem applyTransformation_unknown (env : JsEnv) (data : List Row)
    (headers : List String) (rule : TransformationRule)
    (h : rule.type ∉ knownRuleTypes) :
    applyTransformation env data headers rule =
      { data := data
        headers := headers
        description := "Unknown transformation type: " ++ rule.type
        summary := .emptyS } := by
  simp only [knownRuleTypes, List.mem_cons, List.not_mem_nil, or_false, not_or] at h
  obtain ⟨h1, h2, h3, h4, h5, h6, h7, h8⟩ := h
  unfold applyTransformation
  simp [h1, h2, h3, h4, h5, h6, h7, h8]

/-- C9: the cleaning pipeline never fails on a rule of unknown type:
appending such a rule to any rule list leaves the cleaned records, the
headers and the cumulative removed-row count unchanged, and appends a
description recording the unknown type name to the audit trail. -/
theorem unknown_rule_is_noop (env : JsEnv) (data : List Row) (headers : List String)
    (rules : List TransformationRule) (rule : TransformationRule)
    (outputDelimiter : String) (h : rule.type ∉ knownRuleTypes) :
    (processDataCleaning env data headers (rules ++ [rule]) outputDelimiter).cleanedData =
      (processDataCleaning env data headers rules outputDelimiter).cleanedData ∧
    (processDataCleaning env data headers (rules ++ [rule]) outputDelimiter).headers =
      (processDataCleaning env data headers rules outputDelimiter).headers ∧
    (processDataCleaning env data headers (rules ++ [rule]) outputDelimiter).rowsRemoved =
      (processDataCleaning env data headers rules outputDelimiter).rowsRemoved ∧
    (processDataCleaning env data headers (rules ++ [rule]) outputDelimiter).appliedTransformations =
      (processDataCleaning env data headers rules outputDelimiter).appliedTransformations ++
        ["Unknown transformation type: " ++ rule.type] := by
  unfold processDataCleaning
  rw [List.foldl_append]
  set acc := List.foldl (cleanStep env)
    { cleanedData := data, headers := headers, appliedTransformations := [],
      rowsRemoved := 0, transformationSummary := [] } rules with hacc
  simp [cleanStep, applyTransformation_unknown env _ _ _ h]

/-- C9 witness: a rule of the unknown type bogus on a one-row dataset. -/
theorem unknown_rule_is_noop_witness :
    (⟨"r1", "a", "bogus", {}⟩ : TransformationRule).type ∉ knownRuleTypes ∧
    ((processDataCleaning trivialEnv [[("a", Value.vStr "1")]] ["a"]
        ([] ++ [⟨"r1", "a", "bogus", {}⟩]) ",").cleanedData =
      (processDataCleaning trivialEnv [[("a", Value.vStr "1")]] ["a"] [] ",").cleanedData ∧
    (processDataCleaning trivialEnv [[("a", Value.vStr "1")]] ["a"]
        ([] ++ [⟨"r1", "a", "bogus", {}⟩]) ",").headers =
      (processDataCleaning trivialEnv [[("a", Value.vStr "1")]] ["a"] [] ",").headers ∧
    (processDataCleaning trivialEnv [[("a", Value.vStr "1")]] ["a"]
        ([] ++ [⟨"r1", "a", "bogus", {}⟩]) ",").rowsRemoved =
      (processDataCleaning trivialEnv [[("a", Value.vStr "1")]] ["a"] [] ",").rowsRemoved ∧
    (processDataCleaning trivialEnv [[("a", Value.vStr "1")]] ["a"]
        ([] ++ [⟨"r1", "a", "bogus", {}⟩]) ",").appliedTransformations =
      (processDataCleaning trivialEnv [[("a", Value.vStr "1")]] ["a"] [] ",").appliedTransformations ++
        ["Unknown transformation type: " ++ "bogus"]) :=
  ⟨by decide,
    unknown_rule_is_noop trivialEnv [[("a", Value.vStr "1")]] ["a"] []
      ⟨"r1", "a", "bogus", {}⟩ "," (by decide)⟩

/-- Helper: the rows kept by the dedup scan avoid the seen set and are
pairwise distinct. -/
theorem removeDupAux_clean (l : List Row) : ∀ seen : List Row,
    (∀ x ∈ (removeDupAux seen l).1, x ∉ seen) ∧ (removeDupAux seen l).1.Nodup := by
  induction l with
  | nil => intro seen; simp [removeDupAux]
  | cons r rest ih =>
    intro seen
    by_cases h : r ∈ seen
    · simpa [removeDupAux, h] using ih seen
    · have ih' := ih (r :: seen)
      simp only [removeDupAux, h, if_neg, if_pos]
      constructor
      · intro x hx
        rcases List.mem_cons.mp hx with rfl | hx'
        · exact h
        · intro hxs
          exact ih'.1 x hx' (List.mem_cons_of_mem r hxs)
      · refine List.nodup_cons.mpr ⟨?_, ih'.2⟩
        intro hr
        exact ih'.1 r hr (List.mem_cons_self r seen)

/-- Helper: on input that is duplicate-free and disjoint from the seen
set, the dedup scan keeps everything and drops nothing. -/
theorem removeDupAux_of_fresh (l : List Row) : ∀ seen : List Row,
    l.Nodup → (∀ x ∈ l, x ∉ seen) → removeDupAux seen l = (l, 0) := by
  induction l with
  | nil => intro seen _ _; rfl
  | cons r rest ih =>
    intro seen hnd hdisj
    have hr : r ∉ seen := hdisj r (List.mem_cons_self r rest)
    have hnd' := List.nodup_cons.mp hnd
    have : removeDupAux (r :: seen) rest = (rest, 0) := by
      refine ih (r :: seen) hnd'.2 ?_
      intro x hx
      intro hmem
      rcases List.mem_cons.mp hmem with rfl | hxs
      · exact hnd'.1 hx
      · exact hdisj x (List.mem_cons_of_mem r hx) hxs
    simp [removeDupAux, hr, this]

/-- Helper: dispatch on a rule typed remove_duplicates. -/
theorem applyTransformation_removeDup (env : JsEnv) (data : List Row)
    (headers : List String) (rule : TransformationRule)
    (h : rule.type = "remove_duplicates") :
    applyTransformation env data headers rule = removeDuplicates data headers := by
  unfold applyTransformation
  rw [h]
  simp

/-- C8: applying remove_duplicates twice in sequence through the
cleaning pipeline yields the same cleaned records, headers and
cumulative removed-row count as applying it once, and the second
application removes zero rows. -/
theorem remove_duplicates_idempotent (env : JsEnv) (data : List Row)
    (headers : List String) (r1 r2 : TransformationRule) (outputDelimiter : String)
    (h1 : r1.type = "remove_duplicates") (h2 : r2.type = "remove_duplicates") :
    (processDataCleaning env data headers [r1, r2] outputDelimiter).cleanedData =
      (processDataCleaning env data headers [r1] outputDelimiter).cleanedData ∧
    (processDataCleaning env data headers [r1, r2] outputDelimiter).headers =
      (processDataCleaning env data headers [r1] outputDelimiter).headers ∧
    (processDataCleaning env data headers [r1, r2] outputDelimiter).rowsRemoved =
      (processDataCleaning env data headers [r1] outputDelimiter).rowsRemoved ∧
    (applyTransformation env
      (processDataCleaning env data headers [r1] outputDelimiter).cleanedData
      (processDataCleaning env data headers [r1] outputDelimiter).headers r2).rowsRemoved = 0 := by
  have hsecond : removeDupAux [] (removeDupAux [] data).1 = ((removeDupAux [] data).1, 0) := by
    refine removeDupAux_of_fresh _ [] (removeDupAux_clean data []).2 ?_
    intro x _
    exact List.not_mem_nil x
  unfold processDataCleaning
  simp only [List.foldl_cons, List.foldl_nil]
  simp only [cleanStep, applyTransformation_removeDup env _ _ _ h1,
    applyTransformation_removeDup env _ _ _ h2]
  simp [removeDuplicates, hsecond]

/-- C8 witness: a three-row dataset with one duplicate pair: the second
pass keeps the two deduplicated rows and removes nothing. -/
theorem remove_duplicates_idempotent_witness :
    (⟨"r1", "", "remove_duplicates", {}⟩ : TransformationRule).type = "remove_duplicates" ∧
    ((processDataCleaning trivialEnv
        [[("a", Value.vStr "1")], [("a", Value.vStr "2")], [("a", Value.vStr "1")]] ["a"]
        [⟨"r1", "", "remove_duplicates", {}⟩, ⟨"r2", "", "remove_duplicates", {}⟩] ",").cleanedData =
      (processDataCleaning trivialEnv
        [[("a", Value.vStr "1")], [("a", Value.vStr "2")], [("a", Value.vStr "1")]] ["a"]
        [⟨"r1", "", "remove_duplicates", {}⟩] ",").cleanedData ∧
    (processDataCleaning trivialEnv
        [[("a", Value.vStr "1")], [("a", Value.vStr "2")], [("a", Value.vStr "1")]] ["a"]
        [⟨"r1", "", "remove_duplicates", {}⟩, ⟨"r2", "", "remove_duplicates", {}⟩] ",").headers =
      (processDataCleaning trivialEnv
        [[("a", Value.vStr "1")], [("a", Value.vStr "2")], [("a", Value.vStr "1")]] ["a"]
        [⟨"r1", "", "remove_duplicates", {}⟩] ",").headers ∧
    (processDataCleaning trivialEnv
        [[("a", Value.vStr "1")], [("a", Value.vStr "2")], [("a", Value.vStr "1")]] ["a"]
        [⟨"r1", "", "remove_duplicates", {}⟩, ⟨"r2", "", "remove_duplicates", {}⟩] ",").rowsRemoved =
      (processDataCleaning trivialEnv
        [[("a", Value.vStr "1")], [("a", Value.vStr "2")], [("a", Value.vStr "1")]] ["a"]
        [⟨"r1", "", "remove_duplicates", {}⟩] ",").rowsRemoved ∧
    (applyTransformation trivialEnv
      (processDataCleaning trivialEnv
        [[("a", Value.vStr "1")], [("a", Value.vStr "2")], [("a", Value.vStr "1")]] ["a"]
        [⟨"r1", "", "remove_duplicates", {}⟩] ",").cleanedData
      (processDataCleaning trivialEnv
        [[("a", Value.vStr "1")], [("a", Value.vStr "2")], [("a", Value.vStr "1")]] ["a"]
        [⟨"r1", "", "remove_duplicates", {}⟩] ",").headers
      ⟨"r2", "", "remove_duplicates", {}⟩).rowsRemoved = 0) :=
  ⟨rfl,
    remove_duplicates_idempotent trivialEnv
      [[("a", Value.vStr "1")], [("a", Value.vStr "2")], [("a", Value.vStr "1")]] ["a"]
      ⟨"r1", "", "remove_duplicates", {}⟩ ⟨"r2", "", "remove_duplicates", {}⟩ ","
      rfl rfl⟩

/-- Helper: in a weakly sorted nonempty list, the head is a lower bound. -/
theorem sorted_head_le (d : Int) (rest : List Int)
    (hs : (d :: rest).Pairwise (· ≤ ·)) : ∀ x ∈ d :: rest, d ≤ x := by
  intro x hx
  rcases List.mem_cons.mp hx with rfl | hx'
  · exact le_refl x
  · exact (List.pairwise_cons.mp hs).1 x hx'

/-- Helper: in a weakly sorted nonempty list, the last element is an
upper bound. -/
theorem sorted_le_getLast : ∀ (l : List Int) (hne : l ≠ []),
    l.Pairwise (· ≤ ·) → ∀ x ∈ l, x ≤ l.getLast hne := by
  intro l
  induction l with
  | nil => intro hne; exact absurd rfl hne
  | cons a t ih =>
    intro hne hs x hx
    cases t with
    | nil =>
      rcases List.mem_cons.mp hx with rfl | hx'
      · simp
      · exact absurd hx' (List.not_mem_nil x)
    | cons b t' =>
      rw [List.getLast_cons (List.cons_ne_nil b t')]
      rcases List.mem_cons.mp hx with rfl | hx'
      · exact (List.pairwise_cons.mp hs).1 _ (List.getLast_mem (List.cons_ne_nil b t'))
      · exact ih (List.cons_ne_nil b t') (List.pairwise_cons.mp hs).2 x hx'

/-- Helper: the sort used to model Array.prototype.sort with an
ascending comparator yields a weakly sorted list.  (On integers all
correct sorts agree element-by-element, since tied elements are
identical; insertionSort is chosen because it evaluates by kernel
reduction.) -/
theorem insertionSort_le_sorted (P : List Int) :
    (List.insertionSort (· ≤ ·) P).Pairwise (· ≤ ·) :=
  List.sorted_insertionSort (· ≤ ·) P

/-- C2: for every general date parser, every dataset and every date
column, the date-range entry reports the least parseable value as
minDate and the greatest as maxDate, both as the UTC YYYY-MM-DD form,
with dateRange the day distance between them rounded up; a column with
no parseable values reports all three as null. -/
theorem date_range_min_max (dparse : String → Option Int) (data : List Row)
    (dateColumns : List String) :
    ∀ e ∈ analyzeDateColumns dparse data dateColumns,
      (parsedDates dparse data e.column = [] →
        e.minDate = none ∧ e.maxDate = none ∧ e.dateRange = none) ∧
      (parsedDates dparse data e.column ≠ [] →
        ∃ mn mx, mn ∈ parsedDates dparse data e.column ∧
          mx ∈ parsedDates dparse data e.column ∧
          (∀ x ∈ parsedDates dparse data e.column, mn ≤ x ∧ x ≤ mx) ∧
          e.minDate = some (isoDateString mn) ∧
          e.maxDate = some (isoDateString mx) ∧
          e.dateRange = some (jsCeilDiv (mx - mn) 86400000)) := by
  intro e he
  obtain ⟨c, _, rfl⟩ := List.mem_map.mp he
  have hperm := List.perm_insertionSort (· ≤ ·) (parsedDates dparse data c)
  have hsorted := insertionSort_le_sorted (parsedDates dparse data c)
  unfold dateEntryOf
  cases hd : List.insertionSort (· ≤ ·) (parsedDates dparse data c) with
  | nil =>
    have hP : parsedDates dparse data c = [] := by
      have := hperm
      rw [hd] at this
      exact (List.Perm.nil_eq this).symm
    simp [hP]
  | cons d rest =>
    rw [hd] at hperm hsorted
    have hne : parsedDates dparse data c ≠ [] := by
      intro hP
      rw [hP] at hperm
      exact absurd (List.Perm.eq_nil hperm) (List.cons_ne_nil d rest)
    simp only []
    constructor
    · intro hP
      exact absurd hP hne
    · intro _
      refine ⟨d, (d :: rest).getLast (List.cons_ne_nil d rest), ?_, ?_, ?_, rfl, rfl, rfl⟩
      · exact hperm.mem_iff.mp (List.mem_cons_self d rest)
      · exact hperm.mem_iff.mp (List.getLast_mem (List.cons_ne_nil d rest))
      · intro x hx
        have hx' : x ∈ d :: rest := hperm.mem_iff.mpr hx
        exact ⟨sorted_head_le d rest hsorted x hx',
          sorted_le_getLast (d :: rest) (List.cons_ne_nil d rest) hsorted x hx'⟩

/-- C2 witness: a two-row column with the ISO dates 2023-01-15 and
2023-01-10 under the concrete date-only parser: the analysis brackets
the column by 2023-01-10 and 2023-01-15, five days apart, and the
bracketing bounds promised by the theorem exist. -/
theorem date_range_min_max_witness :
    (dateEntryOf isoDateOnlyParse
        [[("d", Value.vStr "2023-01-15")], [("d", Value.vStr "2023-01-10")]] "d").minDate =
      some "2023-01-10" ∧
    (dateEntryOf isoDateOnlyParse
        [[("d", Value.vStr "2023-01-15")], [("d", Value.vStr "2023-01-10")]] "d").maxDate =
      some "2023-01-15" ∧
    (dateEntryOf isoDateOnlyParse
        [[("d", Value.vStr "2023-01-15")], [("d", Value.vStr "2023-01-10")]] "d").dateRange =
      some 5 ∧
    (∃ mn mx,
      mn ∈ parsedDates isoDateOnlyParse
        [[("d", Value.vStr "2023-01-15")], [("d", Value.vStr "2023-01-10")]] "d" ∧
      mx ∈ parsedDates isoDateOnlyParse
        [[("d", Value.vStr "2023-01-15")], [("d", Value.vStr "2023-01-10")]] "d" ∧
      (∀ x ∈ parsedDates isoDateOnlyParse
        [[("d", Value.vStr "2023-01-15")], [("d", Value.vStr "2023-01-10")]] "d",
        mn ≤ x ∧ x ≤ mx) ∧
      (dateEntryOf isoDateOnlyParse
        [[("d", Value.vStr "2023-01-15")], [("d", Value.vStr "2023-01-10")]] "d").minDate =
        some (isoDateString mn) ∧
      (dateEntryOf isoDateOnlyParse
        [[("d", Value.vStr "2023-01-15")], [("d", Value.vStr "2023-01-10")]] "d").maxDate =
        some (isoDateString mx) ∧
      (dateEntryOf isoDateOnlyParse
        [[("d", Value.vStr "2023-01-15")], [("d", Value.vStr "2023-01-10")]] "d").dateRange =
        some (jsCeilDiv (mx - mn) 86400000)) :=
  ⟨by decide, by decide, by decide,
    (date_range_min_max isoDateOnlyParse
      [[("d", Value.vStr "2023-01-15")], [("d", Value.vStr "2023-01-10")]] ["d"]
      (dateEntryOf isoDateOnlyParse
        [[("d", Value.vStr "2023-01-15")], [("d", Value.vStr "2023-01-10")]] "d")
      (List.mem_singleton.mpr rfl)).2 (by decide)⟩

/-- Helper: lookup after inserting one index. -/
theorem lookupGroup_addIdx (m : List (Row × List Nat)) (k : Row) (i : Nat) (r : Row) :
    lookupGroup (addIdx m k i) r =
      if r = k then some ((lookupGroup m r).getD [] ++ [i]) else lookupGroup m r := by
  induction m with
  | nil =>
    by_cases h : r = k
    · simp [addIdx, lookupGroup, h]
    · have h' : ¬ k = r := fun hh => h hh.symm
      simp [addIdx, lookupGroup, h, h']
  | cons p rest ih =>
    obtain ⟨k', v'⟩ := p
    by_cases h1 : k' = k
    · subst h1
      by_cases h2 : k' = r
      · subst h2
        simp [addIdx, lookupGroup]
      · have h2' : ¬ r = k' := fun hh => h2 hh.symm
        simp [addIdx, lookupGroup, h2, h2']
    · by_cases h2 : k' = r
      · subst h2
        simp [addIdx, lookupGroup, h1, fun hh => h1 (Eq.symm hh)]
      · simp [addIdx, lookupGroup, h1, h2, ih]

/-- Helper: the effect of folding a run of indexed rows into the group
map, expressed through lookup. -/
theorem foldl_addIdx_lookup (l : List (Nat × Row)) :
    ∀ (m : List (Row × List Nat)) (r : Row),
      lookupGroup (l.foldl (fun m p => addIdx m p.2 p.1) m) r =
        optAppend (lookupGroup m r) ((l.filter (fun p => p.2 = r)).map Prod.fst) := by
  induction l with
  | nil =>
    intro m r
    cases h : lookupGroup m r <;> simp [optAppend, h]
  | cons p rest ih =>
    intro m r
    obtain ⟨i, row⟩ := p
    simp only [List.foldl_cons]
    rw [ih (addIdx m row i) r, lookupGroup_addIdx]
    by_cases h : r = row
    · subst h
      simp only [List.filter_cons, decide_eq_true_eq, List.map_cons, if_pos rfl]
      cases hm : lookupGroup m r <;> simp [optAppend, hm]
    · have h' : ¬ (row = r) := fun hh => h (Eq.symm hh)
      simp [List.filter_cons, h, h']

/-- Helper: inserting an index either reuses an existing key or appends
the new key at the end. -/
theorem keys_addIdx (m : List (Row × List Nat)) (k : Row) (i : Nat) :
    (addIdx m k i).map Prod.fst =
      if k ∈ m.map Prod.fst then m.map Prod.fst else m.map Prod.fst ++ [k] := by
  induction m with
  | nil => simp [addIdx]
  | cons p rest ih =>
    obtain ⟨k', v'⟩ := p
    by_cases h : k' = k
    · subst h
      simp [addIdx]
    · have h' : ¬ (k = k') := fun hh => h hh.symm
      by_cases hk : k ∈ rest.map Prod.fst <;> simp [addIdx, h, h', hk, ih]

/-- Helper: inserting preserves distinctness of the keys. -/
theorem keys_addIdx_nodup (m : List (Row × List Nat)) (k : Row) (i : Nat)
    (h : (m.map Prod.fst).Nodup) : ((addIdx m k i).map Prod.fst).Nodup := by
  rw [keys_addIdx]
  by_cases hk : k ∈ m.map Prod.fst
  · simpa [hk] using h
  · simp only [hk, if_neg, if_false]
    rw [List.nodup_append]
    exact ⟨h, List.nodup_singleton k, by simpa using hk⟩

/-- Helper: the group map of findDuplicateRows has pairwise distinct
keys. -/
theorem rowGroups_keys_nodup (data : List Row) :
    ((rowGroups data).map Prod.fst).Nodup := by
  unfold rowGroups
  generalize enumFromN 0 data = l
  have h : ∀ (l : List (Nat × Row)) (m : List (Row × List Nat)),
      (m.map Prod.fst).Nodup →
      ((l.foldl (fun m p => addIdx m p.2 p.1) m).map Prod.fst).Nodup := by
    intro l
    induction l with
    | nil => intro m hm; simpa using hm
    | cons p rest ih =>
      intro m hm
      simp only [List.foldl_cons]
      exact ih _ (keys_addIdx_nodup m p.2 p.1 hm)
  exact h l [] (by simp)

/-- Helper: a successful lookup names an actual entry. -/
theorem mem_of_lookupGroup_some {m : List (Row × List Nat)} {r : Row} {v : List Nat}
    (h : lookupGroup m r = some v) : (r, v) ∈ m := by
  induction m with
  | nil => simp [lookupGroup] at h
  | cons p rest ih =>
    obtain ⟨k', v'⟩ := p
    by_cases hk : k' = r
    · subst hk
      simp [lookupGroup] at h
      subst h
      exact List.mem_cons_self _ _
    · simp only [lookupGroup, if_neg hk] at h
      exact List.mem_cons_of_mem _ (ih h)

/-- Helper: under distinct keys, membership determines lookup. -/
theorem lookupGroup_of_mem_nodup {m : List (Row × List Nat)} {r : Row} {v : List Nat}
    (hnd : (m.map Prod.fst).Nodup) (h : (r, v) ∈ m) : lookupGroup m r = some v := by
  induction m with
  | nil => simp at h
  | cons p rest ih =>
    obtain ⟨k', v'⟩ := p
    have hnd' : (∀ x : List Nat, (k', x) ∉ rest) ∧ (rest.map Prod.fst).Nodup := by
      simpa using hnd
    rcases List.mem_cons.mp h with heq | hmem
    · rw [Prod.mk.injEq] at heq
      obtain ⟨h1, h2⟩ := heq
      subst h1; subst h2
      simp [lookupGroup]
    · by_cases hk : k' = r
      · subst hk
        exact absurd hmem (hnd'.1 v)
      · simp only [lookupGroup, if_neg hk]
        exact ih hnd'.2 hmem

/-- Helper: the group map sends each row to exactly its occurrence
indices. -/
theorem rowGroups_lookup (data : List Row) (r : Row) :
    lookupGroup (rowGroups data) r =
      if indicesOf r data = [] then none else some (indicesOf r data) := by
  unfold rowGroups indicesOf
  rw [foldl_addIdx_lookup]
  simp [lookupGroup, optAppend]

/-- Helper: a map with no entry keyed r contributes no duplicate group
whose representative is r. -/
theorem groups_for_row_nil (r : Row) : ∀ m : List (Row × List Nat),
    r ∉ m.map Prod.fst →
    ((m.filterMap fun g =>
        if 1 < g.2.length then some (⟨g.2, g.1, g.2.length⟩ : DuplicateGroup) else none).filter
      (fun g => g.data = r)) = [] := by
  intro m
  induction m with
  | nil => intro _; simp
  | cons p rest ih =>
    intro h
    obtain ⟨k', v'⟩ := p
    have hk : ¬ (k' = r) := by
      intro hh
      exact h (by simp [hh])
    have hrest : r ∉ rest.map Prod.fst := by
      intro hr
      exact h (List.mem_cons_of_mem _ hr)
    by_cases hv : 1 < v'.length <;>
      simp [List.filterMap_cons, hv, List.filter_cons, hk, ih hrest]

/-- Helper: with distinct keys and a qualifying entry for r, exactly one
duplicate group has representative r. -/
theorem groups_for_row_one (r : Row) (v : List Nat) : ∀ m : List (Row × List Nat),
    (m.map Prod.fst).Nodup → (r, v) ∈ m → 1 < v.length →
    ((m.filterMap fun g =>
        if 1 < g.2.length then some (⟨g.2, g.1, g.2.length⟩ : DuplicateGroup) else none).filter
      (fun g => g.data = r)).length = 1 := by
  intro m
  induction m with
  | nil => intro _ h; simp at h
  | cons p rest ih =>
    intro hnd hmem hlen
    obtain ⟨k', v'⟩ := p
    have hnd' : (∀ x : List Nat, (k', x) ∉ rest) ∧ (rest.map Prod.fst).Nodup := by
      simpa using hnd
    rcases List.mem_cons.mp hmem with heq | hmem'
    · rw [Prod.mk.injEq] at heq
      obtain ⟨h1, h2⟩ := heq
      subst h1; subst h2
      have hrest : r ∉ rest.map Prod.fst := by
        intro hr
        obtain ⟨⟨k2, v2⟩, hp2, hk2⟩ := List.mem_map.mp hr
        simp only at hk2
        subst hk2
        exact hnd'.1 v2 hp2
      simp [List.filterMap_cons, hlen, List.filter_cons, groups_for_row_nil r rest hrest]
    · have hk : ¬ (k' = r) := by
        intro hh
        subst hh
        exact hnd'.1 v hmem'
      by_cases hv : 1 < v'.length <;>
        simp [List.filterMap_cons, hv, List.filter_cons, hk, ih hnd'.2 hmem' hlen]

/-- C5: duplicate detection reports, for each row serialization held by
more than one row, exactly one group; the group carries all indices at
which that row occurs (ascending, hence in original row order), the row
itself as representative, and the group size as count. -/
theorem duplicate_groups (data : List Row) :
    (∀ g ∈ findDuplicateRows data,
      g.count = g.rowIndices.length ∧
      g.rowIndices = indicesOf g.data data ∧
      1 < g.count) ∧
    (∀ r : Row, 1 < (indicesOf r data).length →
      ((findDuplicateRows data).filter (fun g => g.data = r)).length = 1) := by
  constructor
  · intro g hg
    unfold findDuplicateRows at hg
    obtain ⟨⟨k, v⟩, hmem, hsome⟩ := List.mem_filterMap.mp hg
    by_cases hv : 1 < v.length
    · simp only [hv, if_pos] at hsome
      obtain rfl := Option.some.injEq .. ▸ hsome
      have hlk : lookupGroup (rowGroups data) k = some v :=
        lookupGroup_of_mem_nodup (rowGroups_keys_nodup data) hmem
      rw [rowGroups_lookup] at hlk
      by_cases hni : indicesOf k data = []
      · rw [if_pos hni] at hlk
        exact absurd hlk (by simp)
      · rw [if_neg hni] at hlk
        have hv' : v = indicesOf k data := (Option.some.injEq .. ▸ hlk).symm
        exact ⟨rfl, hv', hv⟩
    · simp [hv] at hsome
  · intro r hr
    have hne : indicesOf r data ≠ [] := by
      intro h
      rw [h] at hr
      simp at hr
    have hlk : lookupGroup (rowGroups data) r = some (indicesOf r data) := by
      rw [rowGroups_lookup, if_neg hne]
    have hmem := mem_of_lookupGroup_some hlk
    unfold findDuplicateRows
    exact groups_for_row_one r (indicesOf r data) (rowGroups data)
      (rowGroups_keys_nodup data) hmem hr

/-- C5 witness: six rows with one structurally repeated row at indices 2
and 5 produce exactly one group, with indices [2, 5] and count 2. -/
theorem duplicate_groups_witness :
    1 < (indicesOf [("a", Value.vStr "x")]
      [[("a", Value.vStr "0")], [("a", Value.vStr "1")], [("a", Value.vStr "x")],
       [("a", Value.vStr "3")], [("a", Value.vStr "4")], [("a", Value.vStr "x")]]).length ∧
    ((findDuplicateRows
      [[("a", Value.vStr "0")], [("a", Value.vStr "1")], [("a", Value.vStr "x")],
       [("a", Value.vStr "3")], [("a", Value.vStr "4")], [("a", Value.vStr "x")]]).filter
        (fun g => g.data = [("a", Value.vStr "x")])).length = 1 ∧
    findDuplicateRows
      [[("a", Value.vStr "0")], [("a", Value.vStr "1")], [("a", Value.vStr "x")],
       [("a", Value.vStr "3")], [("a", Value.vStr "4")], [("a", Value.vStr "x")]] =
      [⟨[2, 5], [("a", Value.vStr "x")], 2⟩] :=
  ⟨by decide,
    (duplicate_groups
      [[("a", Value.vStr "0")], [("a", Value.vStr "1")], [("a", Value.vStr "x")],
       [("a", Value.vStr "3")], [("a", Value.vStr "4")], [("a", Value.vStr "x")]]).2
      [("a", Value.vStr "x")] (by decide),
    by decide⟩

/-- Helper: a decimal digit is not a hyphen or slash delimiter. -/
theorem digit_not_delim {c : Char} (h : c.isDigit = true) : ¬ (c = '-' ∨ c = '/') := by
  rintro (rfl | rfl) <;> exact absurd h (by decide)

/-- Helper: a decimal digit is not whitespace. -/
theorem digit_not_ws {c : Char} (h : c.isDigit = true) : c.isWhitespace = false := by
  cases hw : c.isWhitespace
  · rfl
  · exfalso
    simp [Char.isWhitespace] at hw
    rcases hw with ((rfl | rfl) | rfl) | rfl <;> exact absurd h (by decide)

/-- Helper: a decimal digit is not a sign character. -/
theorem digit_not_sign {c : Char} (h : c.isDigit = true) : ¬ (c = '-') ∧ ¬ (c = '+') := by
  constructor <;> (rintro rfl; exact absurd h (by decide))

/-- Helper: dropWhile keeps a list none of whose elements satisfy the
predicate. -/
theorem dropWhile_of_forall_false {α : Type} (p : α → Bool) :
    ∀ l : List α, (∀ c ∈ l, p c = false) → l.dropWhile p = l := by
  intro l
  cases l with
  | nil => intro _; rfl
  | cons a t =>
    intro h
    simp [List.dropWhile_cons, h a (List.mem_cons_self a t)]

/-- Helper: takeWhile keeps a list all of whose elements satisfy the
predicate. -/
theorem takeWhile_of_forall_true {α : Type} (p : α → Bool) :
    ∀ l : List α, (∀ c ∈ l, p c = true) → l.takeWhile p = l := by
  intro l
  induction l with
  | nil => intro _; rfl
  | cons a t ih =>
    intro h
    simp only [List.takeWhile_cons, h a (List.mem_cons_self a t), if_pos]
    rw [ih fun c hc => h c (List.mem_cons_of_mem a hc)]

/-- Helper: trim is the identity on a string with no whitespace. -/
theorem jsTrim_eq_self (s : String) (h : ∀ c ∈ s.toList, c.isWhitespace = false) :
    jsTrim s = s := by
  unfold jsTrim
  rw [dropWhile_of_forall_false _ _ h]
  rw [dropWhile_of_forall_false _ _ (by
    intro c hc
    exact h c (by simpa using hc))]
  simp

/-- Helper: parseInt succeeds on a nonempty pure-digit string and
returns its decimal value. -/
theorem jsParseInt_digits (d : Char) (rest : List Char)
    (hall : ∀ c ∈ d :: rest, c.isDigit = true) :
    jsParseInt (String.mk (d :: rest)) = some ((digitsToNat (d :: rest) : Nat) : Int) := by
  have hd := hall d (List.mem_cons_self d rest)
  unfold jsParseInt
  have htl : (String.mk (d :: rest)).toList = d :: rest := rfl
  rw [htl]
  rw [dropWhile_of_forall_false _ _ (fun c hc => digit_not_ws (hall c hc))]
  have hsign := digit_not_sign hd
  simp only [hsign.1, hsign.2, if_neg, if_false]
  rw [takeWhile_of_forall_true _ _ hall]
  simp

/-- Helper: a strict ten-character DD-MM-YYYY or DD/MM/YYYY value has a
nonempty trim and is accepted by parseDate. -/
theorem strict_dmy_parseable (s : String) (sep a b c d e f g h : Char)
    (hs : s.toList = [a, b, sep, c, d, sep, e, f, g, h])
    (hdig : (∀ x ∈ [a, b, c, d, e, f, g, h], x.isDigit = true))
    (hsep : sep = '-' ∨ sep = '/') :
    jsTrim s ≠ "" ∧ (parseDate s).isSome = true := by
  have ha := hdig a (by simp)
  have hb := hdig b (by simp)
  have hc := hdig c (by simp)
  have hd := hdig d (by simp)
  have he := hdig e (by simp)
  have hf := hdig f (by simp)
  have hg := hdig g (by simp)
  have hh := hdig h (by simp)
  have hsepws : sep.isWhitespace = false := by
    rcases hsep with rfl | rfl <;> decide
  constructor
  · have htr : jsTrim s = s := by
      refine jsTrim_eq_self s ?_
      rw [hs]
      intro x hx
      rcases List.mem_cons.mp hx with rfl | hx
      · exact digit_not_ws ha
      · rcases List.mem_cons.mp hx with rfl | hx
        · exact digit_not_ws hb
        · rcases List.mem_cons.mp hx with rfl | hx
          · exact hsepws
          · rcases List.mem_cons.mp hx with rfl | hx
            · exact digit_not_ws hc
            · rcases List.mem_cons.mp hx with rfl | hx
              · exact digit_not_ws hd
              · rcases List.mem_cons.mp hx with rfl | hx
                · exact hsepws
                · rcases List.mem_cons.mp hx with rfl | hx
                  · exact digit_not_ws he
                  · rcases List.mem_cons.mp hx with rfl | hx
                    · exact digit_not_ws hf
                    · rcases List.mem_cons.mp hx with rfl | hx
                      · exact digit_not_ws hg
                      · rcases List.mem_cons.mp hx with rfl | hx
                        · exact digit_not_ws hh
                        · exact absurd hx (List.not_mem_nil x)
    rw [htr]
    intro hcon
    rw [hcon] at hs
    simp at hs
  · have hsplit : splitDashSlash s.toList = [[a, b], [c, d], [e, f, g, h]] := by
      rw [hs]
      simp [splitDashSlash, digit_not_delim ha, digit_not_delim hb, digit_not_delim hc,
        digit_not_delim hd, digit_not_delim he, digit_not_delim hf, digit_not_delim hg,
        digit_not_delim hh, hsep]
    have h1 : jsParseInt (String.mk [a, b]) = some ((digitsToNat [a, b] : Nat) : Int) := by
      refine jsParseInt_digits a [b] ?_
      intro x hx
      simp only [List.mem_cons, List.not_mem_nil, or_false] at hx
      rcases hx with rfl | rfl
      · exact ha
      · exact hb
    have h2 : jsParseInt (String.mk [c, d]) = some ((digitsToNat [c, d] : Nat) : Int) := by
      refine jsParseInt_digits c [d] ?_
      intro x hx
      simp only [List.mem_cons, List.not_mem_nil, or_false] at hx
      rcases hx with rfl | rfl
      · exact hc
      · exact hd
    have h3 : jsParseInt (String.mk [e, f, g, h]) =
        some ((digitsToNat [e, f, g, h] : Nat) : Int) := by
      refine jsParseInt_digits e [f, g, h] ?_
      intro x hx
      simp only [List.mem_cons, List.not_mem_nil, or_false] at hx
      rcases hx with rfl | rfl | rfl | rfl
      · exact he
      · exact hf
      · exact hg
      · exact hh
    unfold parseDate
    rw [hsplit]
    simp [h1, h2, h3]

/-- C1 (amended): on a string-valued column, date_format rewrites
exactly the non-empty, non-blank values that the three-fragment
day-month-year parse accepts — a parse that is lenient (parseInt
ignores trailing garbage, delimiters may be mixed, fragments may have
any width, and out-of-range parts roll over through the calendar) —
formatting each parsed date through the target template; every value
the parse rejects is left unchanged and uncounted, and transformedCount
is the number of values rewritten.  Strict DD-MM-YYYY / DD/MM/YYYY
values are always accepted. -/
theorem date_format_amended (data : List Row) (headers : List String) (column : String)
    (params : Params) (hstr : stringColumn data column = true) :
    (transformDateFormat data headers column params).headers = headers ∧
    (transformDateFormat data headers column params).data.length = data.length ∧
    (∀ i row s ymd, data.get? i = some row →
      getProp row column = some (.vStr s) → jsTrim s ≠ "" → parseDate s = some ymd →
      (transformDateFormat data headers column params).data.get? i =
        some (setProp row column
          (.vStr (formatDate ymd (params.targetFormat.getD "YYYY-MM-DD"))))) ∧
    (∀ i row, data.get? i = some row → dfCond column row = false →
      (transformDateFormat data headers column params).data.get? i = some row) ∧
    (transformDateFormat data headers column params).summary =
      .dateFormatS ((data.filter (dfCond column)).length)
        (params.targetFormat.getD "YYYY-MM-DD") ∧
    (∀ s sep a b c d e f g h, (s : String).toList = [a, b, sep, c, d, sep, e, f, g, h] →
      (∀ x ∈ [a, b, c, d, e, f, g, h], Char.isDigit x = true) →
      (sep = '-' ∨ sep = '/') →
      dfCond column (setProp [] column (.vStr s)) = true) := by
  refine ⟨rfl, by simp [transformDateFormat], ?_, ?_, ?_, ?_⟩
  · intro i row s ymd hget hprop htrim hparse
    have hne : s ≠ "" := by
      intro hcon
      rw [hcon] at htrim
      exact htrim rfl
    unfold transformDateFormat
    simp only [List.get?_map, hget, Option.map_some']
    have : dfApply column (params.targetFormat.getD "YYYY-MM-DD") row =
        setProp row column
          (.vStr (formatDate ymd (params.targetFormat.getD "YYYY-MM-DD"))) := by
      unfold dfApply
      rw [hprop]
      simp [hne, htrim, hparse]
    rw [this]
  · intro i row hget hcond
    have hrow : (match getProp row column with
        | some (.vStr _) => true
        | some .vNull => true
        | none => true
        | _ => false) = true := by
      have := List.all_eq_true.mp hstr row (List.get?_mem hget)
      simpa using this
    unfold transformDateFormat
    simp only [List.get?_map, hget, Option.map_some']
    have : dfApply column (params.targetFormat.getD "YYYY-MM-DD") row = row := by
      unfold dfApply
      unfold dfCond at hcond
      cases hpv : getProp row column with
      | none => simp
      | some v =>
        cases v with
        | vStr s =>
          rw [hpv] at hcond
          have hcond' : (decide (s ≠ "") && decide (jsTrim s ≠ "")
              && (parseDate s).isSome) = false := hcond
          by_cases hs0 : s = ""
          · simp [hs0]
          · by_cases ht0 : jsTrim s = ""
            · simp [hs0, ht0]
            · have hps : parseDate s = none := by
                cases hp : parseDate s with
                | none => rfl
                | some ymd =>
                  rw [hp] at hcond'
                  simp [hs0, ht0] at hcond'
              simp [hs0, ht0, hps]
        | vNull => simp
        | vNum n =>
          simp [hpv] at hrow
        | vBool b =>
          simp [hpv] at hrow
    rw [this]
  · unfold transformDateFormat
    simp [List.countP_eq_length_filter]
  · intro s sep a b c d e f g h hs hdig hsep
    have hparse := strict_dmy_parseable s sep a b c d e f g h hs hdig hsep
    have hne : s ≠ "" := by
      intro hcon
      rw [hcon] at hs
      simp at hs
    unfold dfCond
    have hget : getProp (setProp [] column (.vStr s)) column = some (.vStr s) := by
      simp [setProp, getProp]
    rw [hget]
    simp [hne, hparse.1, hparse.2]

/-- C1 counterexample: the value 1-2-2023 is not strictly DD-MM-YYYY or
DD/MM/YYYY, yet date_format rewrites it (to 2023-02-01 under the
YYYY-MM-DD template) and counts it as transformed, against the claim
that every value not strictly of those forms is left unchanged and not
counted. -/
theorem date_format_claim_counterexample :
    specStrictDMY "1-2-2023" = false ∧
    (transformDateFormat [[("d", Value.vStr "1-2-2023")]] ["d"] "d"
      { targetFormat := some "YYYY-MM-DD" }).data =
      [[("d", Value.vStr "2023-02-01")]] ∧
    (transformDateFormat [[("d", Value.vStr "1-2-2023")]] ["d"] "d"
      { targetFormat := some "YYYY-MM-DD" }).summary =
      Summary.dateFormatS 1 "YYYY-MM-DD" :=
  ⟨by decide, by decide, by decide⟩

/-- C1 witness: the claim example 31-12-2023 under targetFormat
YYYY-MM-DD becomes 2023-12-31 with transformedCount 1; the amended
theorem applies at this input, and its strict-form clause accepts the
value. -/
theorem date_format_amended_witness :
    stringColumn [[("d", Value.vStr "31-12-2023")]] "d" = true ∧
    (transformDateFormat [[("d", Value.vStr "31-12-2023")]] ["d"] "d"
      { targetFormat := some "YYYY-MM-DD" }).data =
      [[("d", Value.vStr "2023-12-31")]] ∧
    (transformDateFormat [[("d", Value.vStr "31-12-2023")]] ["d"] "d"
      { targetFormat := some "YYYY-MM-DD" }).summary =
      Summary.dateFormatS 1 "YYYY-MM-DD" ∧
    dfCond "d" (setProp [] "d" (.vStr "31-12-2023")) = true :=
  ⟨by decide, by decide, by decide,
    (date_format_amended [[("d", Value.vStr "31-12-2023")]] ["d"] "d"
      { targetFormat := some "YYYY-MM-DD" } (by decide)).2.2.2.2.2
      "31-12-2023" '-' '3' '1' '1' '2' '2' '0' '2' '3' (by decide) (by decide)
      (Or.inl rfl)⟩
